import Mathlib

/-!
Verification development for the `benchmark-e2e` orchestration script
(`src/benchmark-e2e/benchmark-e2e.py`).

The script runs a sequence of benchmark jobs (a vLLM job, then an SGLang
job).  Each job provisions a virtual environment, launches a server
process, polls the server's `/v1/models` endpoint until it is ready,
runs a benchmark workload, and finally kills the server's process group.
`run_jobs` iterates the jobs, logging the outcome of each, and stops at
the first failure.

The embedding below models:
  * `wait_for_server` (lines 31-42) as a fuel-indexed poll loop over an
    oracle `poll : ℤ → PollResult` giving, for each instant (in seconds
    since the start of the wait), either a transport-level exception or
    a response body.  Requests are treated as instantaneous; time
    advances only through `time.sleep(interval_s)`.
  * `run_cmd` (lines 24-28, renamed `runCmd` here) as an outcome-labelled
    command invocation; `proc.check_returncode()` turns a non-zero exit
    status into an exception, modelled by `Except.error`.
  * `VLLMJob.run` (lines 112-178) and `SGLangJob.run` (lines 182-240) as
    sequential programs over a `World` of external outcomes, returning
    the job's result (`Except.error` = an exception escaping `run`) and
    the trace of external actions performed, in order.
  * `run_jobs` (lines 97-108) over abstract jobs, returning the ordered
    event log the operator observes.
  * the teardown sequence `os.killpg(os.getpgid(proc.pid), SIGKILL);
    proc.wait()` (lines 175-177 and 237-239) against a POSIX process
    table, for the idempotence question.
-/

deriving instance DecidableEq for Except

/-- Outcome of one `requests.get` poll against the readiness endpoint:
either an exception escaping `requests.get` (connection refused,
transport error, request timeout, ...) or a response with body text. -/
inductive PollResult where
  | exn : PollResult
  | resp : String → PollResult

/-- Python's substring test `pat in s`, on lists of characters. -/
def hasInfix (pat : List Char) : List Char → Bool
  | [] => pat.isPrefixOf []
  | c :: tl => pat.isPrefixOf (c :: tl) || hasInfix pat tl

/-- The readiness classification of `wait_for_server` (line 37):
`"data" in r.text`, a raw substring test on the body. -/
def isReadyBody (body : String) : Bool :=
  hasInfix "data".toList body.data

/-- Result of the wait loop: readiness observed, or the deadline passed.
`elapsed` is the time (seconds since the wait began) at which the call
returned or at which `TimeoutError` was raised. -/
inductive WaitResult where
  | ready : ℤ → WaitResult
  | timedOut : ℤ → WaitResult
deriving DecidableEq

/-- The `while time.time() < deadline` loop of `wait_for_server`
(lines 34-41), with the wait's start taken as time 0 so that `deadline`
is the timeout and `now` is the elapsed time.  Each iteration issues one
poll (recorded in the returned list), treats an exception or a body
without the marker as not-yet-ready, sleeps `interval` and re-checks the
clock.  `fuel` only bounds the recursion; with `0 < interval` and the
fuel supplied by `wait_for_server` the `fuel = 0` branch is never
reached. -/
def waitFrom (o : ℤ → PollResult) (deadline interval : ℤ) :
    ℤ → ℕ → WaitResult × List ℤ
  | now, 0 => (WaitResult.timedOut now, [])
  | now, fuel + 1 =>
    if now < deadline then
      match o now with
      | PollResult.resp body =>
        if isReadyBody body then
          (WaitResult.ready now, [now])
        else
          let r := waitFrom o deadline interval (now + interval) fuel
          (r.1, now :: r.2)
      | PollResult.exn =>
        let r := waitFrom o deadline interval (now + interval) fuel
        (r.1, now :: r.2)
    else (WaitResult.timedOut now, [])

/-- `wait_for_server` (lines 31-42): poll the endpoint until the body
contains `"data"` or `timeout_s` elapses.  Returns the outcome and the
list of times at which a request was issued. -/
def wait_for_server (o : ℤ → PollResult) (timeout_s interval_s : ℤ) :
    WaitResult × List ℤ :=
  waitFrom o timeout_s interval_s 0 (timeout_s.toNat + 1)

/-- A poll outcome that the loop does not accept as ready: an exception,
or a response whose body fails the `"data"` substring test. -/
def notReady : PollResult → Bool
  | PollResult.exn => true
  | PollResult.resp body => !isReadyBody body

/-- Replace every transport-level exception of an oracle by a response
whose body is not ready (the empty body). -/
def exnToNotReady (o : ℤ → PollResult) : ℤ → PollResult := fun t =>
  match o t with
  | PollResult.exn => PollResult.resp ""
  | r => r

/-- Environment maps, as association lists over variable names, in the
order Python's `os.environ.copy()` happens to hold them. -/
abbrev EnvMap := List (String × String)

/-- Python's `env[k] = v`: overwrite the binding of `k` if present,
otherwise add it. -/
def envSet : EnvMap → String → String → EnvMap
  | [], k, v => [(k, v)]
  | (k0, v0) :: rest, k, v =>
    if k0 == k then (k, v) :: rest else (k0, v0) :: envSet rest k v

/-- Python's `env.get(k)`. -/
def envLookup : EnvMap → String → Option String
  | [], _ => none
  | (k0, v0) :: rest, k => if k0 == k then some v0 else envLookup rest k

/-- The spawn environment built at lines 123-125 (and 199-201):
`env = os.environ.copy()`, then `if self.cuda_dev:` — Python string
truthiness, i.e. the override is applied only when non-empty —
`env["CUDA_VISIBLE_DEVICES"] = self.cuda_dev`. -/
def buildSpawnEnv (base : EnvMap) (cudaDev : String) : EnvMap :=
  if cudaDev.isEmpty then base else envSet base "CUDA_VISIBLE_DEVICES" cudaDev

/-- An externally visible action a job performs: running a foreground
command to completion (`subprocess.run`), spawning the detached server
(`subprocess.Popen` with `preexec_fn=os.setsid`, carrying the spawn
environment), and the teardown pair `os.killpg`/`proc.wait`. -/
inductive Act where
  | cmd : String → Act
  | spawn : String → EnvMap → Act
  | killpg : Act
  | procWait : Act
deriving DecidableEq

/-- Job configuration, from the parsed command line (lines 15-21). -/
structure JobCfg where
  port : ℤ
  model : String
  cuda_dev : String

/-- Outcomes of the external world for one job run: whether each
external command exits with status 0, whether `Popen` itself succeeds,
and the readiness endpoint's behaviour over time. -/
structure World where
  osEnv : EnvMap
  venvOk : Bool
  installOk : Bool
  spawnOk : Bool
  poll : ℤ → PollResult
  srcVenvOk : Bool
  srcDepsOk : Bool
  benchOk : Bool

/-- `run_cmd` (lines 24-28, the Lean name differs from the source's):
`subprocess.run` followed by `proc.check_returncode()`, which raises
`CalledProcessError` — modelled as `Except.error` — when the command
exits non-zero. -/
def runCmd (label : String) (exitOk : Bool) : Except String Unit :=
  if exitOk then Except.ok () else Except.error (label ++ ": non-zero exit status")

/-- `VLLMJob.run` (lines 112-178).  Returns the result of `run()` —
`Except.error` meaning an exception escaped it — together with the trace
of external actions, in program order.  Note that the teardown pair only
appears on the all-success path: no `try`/`finally` protects it, so any
earlier exception propagates out of `run` before `os.killpg` is
reached. -/
def VLLMJob.run (cfg : JobCfg) (w : World) : Except String Unit × List Act :=
  let t1 := [Act.cmd "uv venv venv-vllm"]
  match runCmd "uv venv venv-vllm" w.venvOk with
  | Except.error e => (Except.error e, t1)
  | Except.ok _ =>
    let t2 := t1 ++ [Act.cmd "uv pip install vllm==0.8.3"]
    match runCmd "uv pip install vllm==0.8.3" w.installOk with
    | Except.error e => (Except.error e, t2)
    | Except.ok _ =>
      let env := buildSpawnEnv w.osEnv cfg.cuda_dev
      if !w.spawnOk then (Except.error "Popen: OSError", t2)
      else
        let t3 := t2 ++ [Act.spawn "vllm serve" env]
        match (wait_for_server w.poll 120 2).1 with
        | WaitResult.timedOut _ => (Except.error "Timeout waiting for server", t3)
        | WaitResult.ready _ =>
          let t4 := t3 ++ [Act.cmd "uv venv venv-vllm-src"]
          match runCmd "uv venv venv-vllm-src" w.srcVenvOk with
          | Except.error e => (Except.error e, t4)
          | Except.ok _ =>
            let t5 := t4 ++ [Act.cmd "uv pip install -e . numpy pandas datasets"]
            match runCmd "uv pip install -e . numpy pandas datasets" w.srcDepsOk with
            | Except.error e => (Except.error e, t5)
            | Except.ok _ =>
              let t6 := t5 ++ [Act.cmd "benchmark_1000_in_100_out.sh FRAMEWORK=vllm"]
              match runCmd "benchmark_1000_in_100_out.sh FRAMEWORK=vllm" w.benchOk with
              | Except.error e => (Except.error e, t6)
              | Except.ok _ =>
                (Except.ok (), t6 ++ [Act.killpg, Act.procWait])

/-- `SGLangJob.run` (lines 182-240).  Same shape as `VLLMJob.run`
without the `venv-vllm-src` provisioning steps; the same absence of
`try`/`finally` applies to its teardown pair. -/
def SGLangJob.run (cfg : JobCfg) (w : World) : Except String Unit × List Act :=
  let t1 := [Act.cmd "uv venv venv-sgl"]
  match runCmd "uv venv venv-sgl" w.venvOk with
  | Except.error e => (Except.error e, t1)
  | Except.ok _ =>
    let t2 := t1 ++ [Act.cmd "uv pip install sglang[all]==0.4.4.post1"]
    match runCmd "uv pip install sglang[all]==0.4.4.post1" w.installOk with
    | Except.error e => (Except.error e, t2)
    | Except.ok _ =>
      let env := buildSpawnEnv w.osEnv cfg.cuda_dev
      if !w.spawnOk then (Except.error "Popen: OSError", t2)
      else
        let t3 := t2 ++ [Act.spawn "python3 -m sglang.launch_server" env]
        match (wait_for_server w.poll 120 2).1 with
        | WaitResult.timedOut _ => (Except.error "Timeout waiting for server", t3)
        | WaitResult.ready _ =>
          let t4 := t3 ++ [Act.cmd "benchmark_1000_in_100_out.sh FRAMEWORK=sgl"]
          match runCmd "benchmark_1000_in_100_out.sh FRAMEWORK=sgl" w.benchOk with
          | Except.error e => (Except.error e, t4)
          | Except.ok _ =>
            (Except.ok (), t4 ++ [Act.killpg, Act.procWait])

/-- Number of teardown invocations (`os.killpg` calls) in a trace. -/
def countKill (tr : List Act) : ℕ :=
  tr.countP fun a => match a with | Act.killpg => true | _ => false

/-- Number of server spawns (`subprocess.Popen` calls) in a trace. -/
def countSpawn (tr : List Act) : ℕ :=
  tr.countP fun a => match a with | Act.spawn _ _ => true | _ => false

/-- A job as `run_jobs` sees it: a name and the outcome of `job.run()`
(result plus the action trace it performed). -/
structure MJob where
  name : String
  run : Except String Unit × List Act

/-- True when `job.run()` returned normally. -/
def exceptOk : Except String Unit → Bool
  | Except.ok _ => true
  | Except.error _ => false

/-- One entry of the operator-visible event log of `run_jobs`:
the start/completed/failed log lines, the external `pkill` sweep, and
the actions each job performed while running. -/
inductive Event where
  | started : String → Event
  | completed : String → Event
  | failed : String → String → Event
  | pkill : String → Event
  | jobAct : String → Act → Event
deriving DecidableEq

/-- `run_jobs` (lines 97-108): for each job in order, log its start, run
it; on an exception log the failure and return at once; on success log
completion and, only when the job is named `"vllm"`, run
`pkill -f "vllm serve"` before the next job. -/
def run_jobs : List MJob → List Event
  | [] => []
  | j :: rest =>
    let hd := Event.started j.name :: j.run.2.map (Event.jobAct j.name)
    match j.run.1 with
    | Except.error e => hd ++ [Event.failed j.name e]
    | Except.ok _ =>
      if j.name == "vllm" then
        hd ++ [Event.completed j.name, Event.pkill "vllm serve"] ++ run_jobs rest
      else
        hd ++ [Event.completed j.name] ++ run_jobs rest

/-- Number of external cleanup sweeps (`pkill` invocations) in an event
log. -/
def countPkill (evs : List Event) : ℕ :=
  evs.countP fun e => match e with | Event.pkill _ => true | _ => false

/-- A POSIX process table: the `(pid, pgid)` pairs of the processes the
orchestrator can still address.  `proc.wait()` reaps the killed child,
so after the teardown pair runs its pid is no longer in the table. -/
abbrev ProcTable := List (ℕ × ℕ)

/-- `os.getpgid(pid)` with POSIX error semantics: `ProcessLookupError`
(errno `ESRCH`) when no process with that pid exists. -/
def osGetpgid (t : ProcTable) (pid : ℕ) : Except String ℕ :=
  match t.lookup pid with
  | some g => Except.ok g
  | none => Except.error "ProcessLookupError"

/-- `os.killpg(pgid, SIGKILL)` with POSIX error semantics:
`ProcessLookupError` when the group is empty, otherwise every process
of the group dies (and, combined with `proc.wait()`, is reaped). -/
def osKillpg (t : ProcTable) (pgid : ℕ) : Except String ProcTable :=
  if t.any (fun e => e.2 == pgid) then
    Except.ok (t.filter (fun e => !(e.2 == pgid)))
  else Except.error "ProcessLookupError"

/-- The teardown sequence of lines 175-177 and 237-239,
`os.killpg(os.getpgid(proc.pid), signal.SIGKILL); proc.wait()`, run
against a process table: the spec's `ProcessSupervisor.terminate`. -/
def terminate (t : ProcTable) (pid : ℕ) : Except String ProcTable :=
  match osGetpgid t pid with
  | Except.error e => Except.error e
  | Except.ok g => osKillpg t g

/-- Spec-side definition, for comparison only (following the spec's
words, not the source): a well-formed ready response is the rendering
of a listing of served resources, `ids` being the listed model ids; the
spec's "expected structural marker" is a non-empty `ids`.  Any body not
of this shape is malformed. -/
def specReadyResponse (ids : List String) : String :=
  "\x7b\x22object\x22:\x22list\x22,\x22data\x22:[" ++
    String.intercalate "," (ids.map (fun i => "\x7b\x22id\x22:\x22" ++ i ++ "\x22\x7d")) ++
    "]\x7d"

/-- The configuration of the defaults at lines 17-19. -/
def cfg0 : JobCfg :=
  { port := 8080, model := "meta-llama/Llama-3.1-8B-Instruct", cuda_dev := "" }

/-- A world whose readiness endpoint never answers (connection refused
forever) and in which every external command succeeds. -/
def w0 : World :=
  { osEnv := [("PATH", "/usr/bin"), ("HOME", "/root")]
    venvOk := true, installOk := true, spawnOk := true
    poll := fun _ => PollResult.exn
    srcVenvOk := true, srcDepsOk := true, benchOk := true }

/-- A world in which the server comes up immediately but the benchmark
workload exits non-zero. -/
def wBenchFail : World :=
  { osEnv := [("PATH", "/usr/bin")]
    venvOk := true, installOk := true, spawnOk := true
    poll := fun _ => PollResult.resp "\x7b\x22object\x22:\x22list\x22,\x22data\x22:[]\x7d"
    srcVenvOk := true, srcDepsOk := true, benchOk := false }

/-- A world in which provisioning (the first `uv venv`) fails. -/
def wVenvFail : World :=
  { osEnv := []
    venvOk := false, installOk := true, spawnOk := true
    poll := fun _ => PollResult.exn
    srcVenvOk := true, srcDepsOk := true, benchOk := true }

/-- A fully successful world. -/
def wAllOk : World :=
  { osEnv := [("PATH", "/usr/bin")]
    venvOk := true, installOk := true, spawnOk := true
    poll := fun _ => PollResult.resp "\x7b\x22object\x22:\x22list\x22,\x22data\x22:[]\x7d"
    srcVenvOk := true, srcDepsOk := true, benchOk := true }

-- sanity checks on the job embedding
example : (VLLMJob.run cfg0 w0).1 = Except.error "Timeout waiting for server" := by decide
example : countKill (VLLMJob.run cfg0 w0).2 = 0 := by decide
example : countSpawn (VLLMJob.run cfg0 w0).2 = 1 := by decide
example : countSpawn (VLLMJob.run cfg0 wVenvFail).2 = 0 := by decide
example : (VLLMJob.run cfg0 wAllOk).1 = Except.ok () := by decide
example : countKill (VLLMJob.run cfg0 wAllOk).2 = 1 := by decide
example : (SGLangJob.run cfg0 wAllOk).1 = Except.ok () := by decide
example :
    run_jobs [⟨"sglang", (Except.ok (), [])⟩] =
      [Event.started "sglang", Event.completed "sglang"] := by decide
example :
    countPkill (run_jobs [⟨"vllm", (Except.ok (), [])⟩, ⟨"sglang", (Except.ok (), [])⟩]) = 1 := by
  decide
example : terminate [(5, 5)] 5 = Except.ok [] := by decide
example : terminate [] 5 = Except.error "ProcessLookupError" := by decide
example : specReadyResponse [] = "\x7b\x22object\x22:\x22list\x22,\x22data\x22:[]\x7d" := by decide

lemma string_data_append (a b : String) : (a ++ b).data = a.data ++ b.data := rfl

/-- When no poll ever satisfies the readiness test, the loop runs to the
deadline: given enough fuel, it returns `timedOut e` for the first
elapsed time `e ≥ T` of the form `now + k * I`. -/
lemma waitFrom_timedOut_of_notReady (o : ℤ → PollResult) (T I : ℤ)
    (ho : ∀ t, notReady (o t) = true) :
    ∀ (fuel : ℕ) (now : ℤ), T ≤ now + (fuel : ℤ) * I → now < T + I →
      ∃ e ps, waitFrom o T I now fuel = (WaitResult.timedOut e, ps) ∧
        T ≤ e ∧ e < T + I := by
  intro fuel
  induction fuel with
  | zero =>
    intro now h1 h2
    exact ⟨now, [], rfl, by simpa using h1, h2⟩
  | succ n ih =>
    intro now h1 h2
    by_cases hlt : now < T
    · have hrec := ih (now + I) (by push_cast at h1 ⊢; linarith)
        (by linarith)
      obtain ⟨e, ps, heq, hTe, heI⟩ := hrec
      cases hpoll : o now with
      | exn =>
        refine ⟨e, now :: ps, ?_, hTe, heI⟩
        simp [waitFrom, hlt, hpoll, heq]
      | resp body =>
        have hnr : isReadyBody body = false := by
          have := ho now
          simpa [notReady, hpoll] using this
        refine ⟨e, now :: ps, ?_, hTe, heI⟩
        simp [waitFrom, hlt, hpoll, hnr, heq]
    · exact ⟨now, [], by simp [waitFrom, hlt], le_of_not_lt hlt, h2⟩

/-- A `ready` result carries the time of the poll that observed it,
which is never earlier than the time the loop started from. -/
lemma waitFrom_ready_ge (o : ℤ → PollResult) (T I : ℤ) (hI : 0 ≤ I) :
    ∀ (fuel : ℕ) (now e : ℤ) (ps : List ℤ),
      waitFrom o T I now fuel = (WaitResult.ready e, ps) → now ≤ e := by
  intro fuel
  induction fuel with
  | zero => intro now e ps h; simp [waitFrom] at h
  | succ n ih =>
    intro now e ps h
    by_cases hlt : now < T
    · cases hpoll : o now with
      | exn =>
        simp [waitFrom, hlt, hpoll] at h
        rcases hr : waitFrom o T I (now + I) n with ⟨r1, rps⟩
        rw [hr] at h
        have h1 : r1 = WaitResult.ready e := h.1
        have := ih (now + I) e rps (by rw [hr, h1])
        linarith
      | resp body =>
        by_cases hb : isReadyBody body
        · simp [waitFrom, hlt, hpoll, hb] at h
          omega
        · simp [waitFrom, hlt, hpoll, hb] at h
          rcases hr : waitFrom o T I (now + I) n with ⟨r1, rps⟩
          rw [hr] at h
          have h1 : r1 = WaitResult.ready e := h.1
          have := ih (now + I) e rps (by rw [hr, h1])
          linarith
    · simp [waitFrom, hlt] at h

-- sanity checks on the poll-loop embedding
example : isReadyBody "metadata" = true := by decide
example : isReadyBody "" = false := by decide
example : (wait_for_server (fun _ => PollResult.exn) 6 2).1 = WaitResult.timedOut 6 := by decide
example : (wait_for_server (fun _ => PollResult.exn) 6 2).2 = [0, 2, 4] := by decide
example : (wait_for_server (fun _ => PollResult.resp "data") 6 2).1 = WaitResult.ready 0 := by decide
example : (wait_for_server (fun _ => PollResult.exn) 0 2) = (WaitResult.timedOut 0, []) := by decide
example : (wait_for_server (fun t => if t < 4 then PollResult.exn else PollResult.resp "data") 120 2).1 = WaitResult.ready 4 := by decide

/-- Swapping exceptions for not-ready responses leaves the loop's
behaviour unchanged, poll for poll. -/
lemma waitFrom_exnToNotReady (o : ℤ → PollResult) (T I : ℤ) :
    ∀ (fuel : ℕ) (now : ℤ),
      waitFrom (exnToNotReady o) T I now fuel = waitFrom o T I now fuel := by
  have hempty : isReadyBody "" = false := by decide
  intro fuel
  induction fuel with
  | zero => intro now; rfl
  | succ n ih =>
    intro now
    by_cases hlt : now < T
    · cases hpoll : o now with
      | exn =>
        have hmask : exnToNotReady o now = PollResult.resp "" := by
          simp [exnToNotReady, hpoll]
        simp [waitFrom, hlt, hpoll, hmask, hempty, ih]
      | resp body =>
        have hmask : exnToNotReady o now = PollResult.resp body := by
          simp [exnToNotReady, hpoll]
        simp [waitFrom, hlt, hpoll, hmask, ih]
    · simp [waitFrom, hlt]

/-- C3: for every timeout `T` and poll interval `I` with `0 < I < T`,
`wait_for_server` against a service that never responds successfully
raises `TimeoutError` at an elapsed time no earlier than `T` and no
later than `T + I`. -/
theorem readiness_timeout_window (o : ℤ → PollResult) (T I : ℤ)
    (ho : ∀ t, notReady (o t) = true) (hI : 0 < I) (hIT : I < T) :
    ∃ e, (wait_for_server o T I).1 = WaitResult.timedOut e ∧ T ≤ e ∧ e ≤ T + I := by
  have hT : 0 < T := lt_trans hI hIT
  have hTnat : ((T.toNat : ℤ)) = T := Int.toNat_of_nonneg hT.le
  have hfuel : T ≤ 0 + ((T.toNat + 1 : ℕ) : ℤ) * I := by
    push_cast
    rw [hTnat]
    nlinarith
  obtain ⟨e, ps, heq, hTe, heI⟩ :=
    waitFrom_timedOut_of_notReady o T I ho (T.toNat + 1) 0 hfuel (by linarith)
  exact ⟨e, by simp [wait_for_server, heq], hTe, le_of_lt heI⟩

/-- Witness for C3 at `T = 6`, `I = 2`, a service that always refuses
the connection. -/
theorem readiness_timeout_window_witness :
    ∃ e, (wait_for_server (fun _ => PollResult.exn) 6 2).1 = WaitResult.timedOut e ∧
      6 ≤ e ∧ e ≤ 6 + 2 :=
  readiness_timeout_window (fun _ => PollResult.exn) 6 2 (fun _ => rfl)
    (by decide) (by decide)

/-- C7: a transport error or connection refusal raised while contacting
the endpoint is never fatal: the loop behaves exactly as if the poll had
returned a not-yet-ready body, so it continues until readiness or
timeout. -/
theorem transport_error_not_fatal (o : ℤ → PollResult) (T I : ℤ) :
    wait_for_server (exnToNotReady o) T I = wait_for_server o T I := by
  unfold wait_for_server
  exact waitFrom_exnToNotReady o T I (T.toNat + 1) 0

/-- C9: a timeout value `≤ 0` makes `wait_for_server` raise
`TimeoutError` immediately, at elapsed time 0, without issuing a single
request (the returned poll list is empty). -/
theorem nonpositive_timeout_no_poll (o : ℤ → PollResult) (T I : ℤ) (hT : T ≤ 0) :
    wait_for_server o T I = (WaitResult.timedOut 0, []) := by
  have h0 : ¬ ((0 : ℤ) < T) := not_lt.mpr hT
  simp [wait_for_server, waitFrom, h0]

/-- Witness for C9 at `T = -3`, `I = 2`. -/
theorem nonpositive_timeout_no_poll_witness :
    wait_for_server (fun _ => PollResult.resp "data") (-3) 2 =
      (WaitResult.timedOut 0, []) :=
  nonpositive_timeout_no_poll (fun _ => PollResult.resp "data") (-3) 2 (by decide)

/-- C4, counterexample: the claim that a response is classified ready
only if it can be parsed as a well-formed listing of served resources
with at least one entry is false: the code's test is
`"data" in r.text` (line 37), so the malformed four-character body
`"data"` — which is no rendering of a resource listing at all — is
classified as ready. -/
theorem ready_marker_counterexample :
    ¬ (∀ body, isReadyBody body = true →
        ∃ ids, ids ≠ [] ∧ body = specReadyResponse ids) := by
  intro h
  obtain ⟨ids, hne, heq⟩ := h "data" (by decide)
  have hlen := congrArg (fun s => s.data.length) heq
  simp only [specReadyResponse, string_data_append, List.length_append] at hlen
  have h4 : ("data" : String).data.length = 4 := by decide
  have hpre : ("\x7b\x22object\x22:\x22list\x22,\x22data\x22:[" : String).data.length = 25 := by
    decide
  have hpost : ("]\x7d" : String).data.length = 2 := by decide
  rw [h4, hpre, hpost] at hlen
  omega

/-- C4, amended: a response is classified as ready exactly when its raw
text contains the substring `"data"` — no parsing and no non-emptiness
check is performed — and a body failing that test is treated as not yet
ready, the loop polling again instead of returning.  Stated on the
first poll: when the service answers at time 0 with body `body`, the
wait returns `ready` at time 0 iff the substring test accepts `body`. -/
theorem ready_iff_substring (o : ℤ → PollResult) (body : String) (T I : ℤ)
    (hT : 0 < T) (hI : 0 < I) (h0 : o 0 = PollResult.resp body) :
    (wait_for_server o T I).1 = WaitResult.ready 0 ↔ isReadyBody body = true := by
  constructor
  · intro h
    by_cases hb : isReadyBody body
    · exact hb
    · exfalso
      have hb' : isReadyBody body = false := by simpa using hb
      have hstep : (wait_for_server o T I).1 =
          (waitFrom o T I (0 + I) T.toNat).1 := by
        simp [wait_for_server, waitFrom, hT, h0, hb']
      rw [hstep] at h
      rcases hr : waitFrom o T I (0 + I) T.toNat with ⟨r1, rps⟩
      rw [hr] at h
      have h1 : r1 = WaitResult.ready 0 := h
      have := waitFrom_ready_ge o T I hI.le T.toNat (0 + I) 0 rps (by rw [hr, h1])
      linarith
  · intro h
    simp [wait_for_server, waitFrom, hT, h0, h]

/-- Witness for the amended C4 at body `"data"` (accepted although
malformed) with `T = 120`, `I = 2`. -/
theorem ready_iff_substring_witness :
    (wait_for_server (fun _ => PollResult.resp "data") 120 2).1 =
      WaitResult.ready 0 :=
  (ready_iff_substring (fun _ => PollResult.resp "data") "data" 120 2
    (by decide) (by decide) rfl).mpr (by decide)

/-- A pid absent from a table's key column has no lookup result. -/
lemma lookup_eq_none_of_not_mem_keys :
    ∀ (l : ProcTable) (pid : ℕ), pid ∉ l.map Prod.fst → l.lookup pid = none := by
  intro l
  induction l with
  | nil => intro pid _; rfl
  | cons hd rest ih =>
    intro pid hmem
    obtain ⟨k, v⟩ := hd
    simp only [List.map_cons, List.mem_cons, not_or] at hmem
    have hk : (pid == k) = false := beq_eq_false_iff_ne.mpr hmem.1
    simp [List.lookup, hk, ih pid hmem.2]

/-- Killing the process group a pid belongs to removes that pid from a
duplicate-free process table. -/
lemma lookup_after_kill (t : ProcTable) (pid g : ℕ)
    (hnd : (t.map Prod.fst).Nodup) (hl : t.lookup pid = some g) :
    (t.filter fun e => !(e.2 == g)).lookup pid = none := by
  induction t with
  | nil => simp [List.lookup] at hl
  | cons hd rest ih =>
    obtain ⟨k, v⟩ := hd
    simp only [List.map_cons, List.nodup_cons] at hnd
    by_cases hk : pid = k
    · subst hk
      have hv : v = g := by simpa [List.lookup] using hl
      subst hv
      have hrest : rest.lookup pid = none :=
        lookup_eq_none_of_not_mem_keys rest pid hnd.1
      have hsub : (rest.filter fun e => !(e.2 == v)).lookup pid = none := by
        apply lookup_eq_none_of_not_mem_keys
        intro hmem
        exact hnd.1 (List.map_subset Prod.fst (List.filter_sublist _).subset hmem)
      simp [List.filter, hsub]
    · have hkb : (pid == k) = false := beq_eq_false_iff_ne.mpr hk
      have hl' : rest.lookup pid = some g := by simpa [List.lookup, hkb] using hl
      by_cases hv : (v == g) = true
      · simp [List.filter, hv, ih hnd.2 hl']
      · have hv' : (v == g) = false := by simpa using hv
        simp [List.filter, hv', List.lookup, hkb, ih hnd.2 hl']

/-- C6, counterexample: calling the teardown sequence a second time on
the same handle is not a tolerated no-op.  After
`terminate [(5, 5)] 5` kills and reaps pid 5, the second call's
`os.getpgid` finds no such process and raises `ProcessLookupError`
instead of returning. -/
theorem terminate_not_idempotent :
    terminate [(5, 5)] 5 = Except.ok [] ∧
      ¬ ∃ t3, terminate [] 5 = Except.ok t3 := by
  constructor
  · decide
  · rintro ⟨t3, h⟩
    simp [terminate, osGetpgid, List.lookup] at h

/-- C6, amended: on a duplicate-free process table, once
`terminate` has succeeded on a handle, calling it again on the same
handle raises `ProcessLookupError` — the second call is an error, not a
no-op. -/
theorem terminate_second_call_raises (t : ProcTable) (pid : ℕ) (t2 : ProcTable)
    (hnd : (t.map Prod.fst).Nodup)
    (h1 : terminate t pid = Except.ok t2) :
    terminate t2 pid = Except.error "ProcessLookupError" := by
  unfold terminate osGetpgid at h1 ⊢
  cases hl : t.lookup pid with
  | none => rw [hl] at h1; exact absurd h1 (by simp)
  | some g =>
    rw [hl] at h1
    simp only [] at h1
    unfold osKillpg at h1
    by_cases hany : t.any (fun e => e.2 == g)
    · rw [if_pos hany] at h1
      have ht2 : t2 = t.filter fun e => !(e.2 == g) := by
        cases h1; rfl
      rw [ht2, lookup_after_kill t pid g hnd hl]
    · rw [if_neg hany] at h1
      exact absurd h1 (by simp)

/-- Witness for the amended C6: pid 5, its own group leader, killed and
reaped by the first call; the second call raises. -/
theorem terminate_second_call_raises_witness :
    terminate [] 5 = Except.error "ProcessLookupError" :=
  terminate_second_call_raises [(5, 5)] 5 [] (by decide) (by decide)

/-- On a never-ready world, the wait at lines 136-138 (and 214-216)
times out. -/
lemma wait_default_timedOut (w : World) (ho : ∀ t, notReady (w.poll t) = true) :
    ∃ e, (wait_for_server w.poll 120 2).1 = WaitResult.timedOut e := by
  have hfuel : (120 : ℤ) ≤ 0 + ((121 : ℕ) : ℤ) * 2 := by norm_num
  obtain ⟨e, ps, heq, _, _⟩ :=
    waitFrom_timedOut_of_notReady w.poll 120 2 ho 121 0 hfuel (by norm_num)
  refine ⟨e, ?_⟩
  have : wait_for_server w.poll 120 2 = waitFrom w.poll 120 2 0 121 := rfl
  rw [this, heq]

/-- C1, counterexample: in the concrete run `VLLMJob.run cfg0 w0` —
provisioning and spawn succeed, the readiness endpoint refuses every
connection — the probe times out, the job reports the timeout failure,
the server was spawned, yet `os.killpg` is executed zero times, not
exactly once: the `TimeoutError` at line 138 propagates straight out of
`run`, and no `try`/`finally` routes control through the teardown at
lines 175-177. -/
theorem vllm_timeout_no_teardown_counterexample :
    (wait_for_server w0.poll 120 2).1 = WaitResult.timedOut 120 ∧
      (VLLMJob.run cfg0 w0).1 = Except.error "Timeout waiting for server" ∧
      countSpawn (VLLMJob.run cfg0 w0).2 = 1 ∧
      countKill (VLLMJob.run cfg0 w0).2 = 0 := by
  refine ⟨?_, ?_, ?_, ?_⟩ <;> decide

/-- C1, amended: a job whose readiness probe times out performs no
teardown at all: `run` reports the timeout failure, the spawned process
handle is live, and `os.killpg` is invoked zero times (for both the
vLLM and the SGLang job). -/
theorem readiness_timeout_skips_teardown (cfg : JobCfg) (w : World)
    (h1 : w.venvOk = true) (h2 : w.installOk = true) (h3 : w.spawnOk = true)
    (ho : ∀ t, notReady (w.poll t) = true) :
    ((VLLMJob.run cfg w).1 = Except.error "Timeout waiting for server" ∧
      countSpawn (VLLMJob.run cfg w).2 = 1 ∧
      countKill (VLLMJob.run cfg w).2 = 0) ∧
    ((SGLangJob.run cfg w).1 = Except.error "Timeout waiting for server" ∧
      countSpawn (SGLangJob.run cfg w).2 = 1 ∧
      countKill (SGLangJob.run cfg w).2 = 0) := by
  obtain ⟨e, hw⟩ := wait_default_timedOut w ho
  constructor
  · refine ⟨?_, ?_, ?_⟩ <;>
      simp [VLLMJob.run, runCmd, h1, h2, h3, hw, countSpawn, countKill]
  · refine ⟨?_, ?_, ?_⟩ <;>
      simp [SGLangJob.run, runCmd, h1, h2, h3, hw, countSpawn, countKill]

/-- Witness for the amended C1 at the concrete never-ready world. -/
theorem readiness_timeout_skips_teardown_witness :
    (VLLMJob.run cfg0 w0).1 = Except.error "Timeout waiting for server" ∧
      countSpawn (VLLMJob.run cfg0 w0).2 = 1 ∧
      countKill (VLLMJob.run cfg0 w0).2 = 0 :=
  (readiness_timeout_skips_teardown cfg0 w0 rfl rfl rfl (fun _ => rfl)).1

/-- C8: a job whose provisioning fails (either `uv venv` or the package
install exits non-zero, making `run_cmd`'s `check_returncode` raise)
never spawns the server, never reaches teardown, and reports a failure
— for both the vLLM and the SGLang job. -/
theorem provisioning_failure_no_spawn (cfg : JobCfg) (w : World)
    (h : w.venvOk = false ∨ w.installOk = false) :
    (countSpawn (VLLMJob.run cfg w).2 = 0 ∧ countKill (VLLMJob.run cfg w).2 = 0 ∧
      exceptOk (VLLMJob.run cfg w).1 = false) ∧
    (countSpawn (SGLangJob.run cfg w).2 = 0 ∧ countKill (SGLangJob.run cfg w).2 = 0 ∧
      exceptOk (SGLangJob.run cfg w).1 = false) := by
  rcases h with h | h
  · constructor <;>
      refine ⟨?_, ?_, ?_⟩ <;>
        simp [VLLMJob.run, SGLangJob.run, runCmd, h, countSpawn, countKill, exceptOk]
  · cases hv : w.venvOk
    · constructor <;>
        refine ⟨?_, ?_, ?_⟩ <;>
          simp [VLLMJob.run, SGLangJob.run, runCmd, hv, countSpawn, countKill, exceptOk]
    · constructor <;>
        refine ⟨?_, ?_, ?_⟩ <;>
          simp [VLLMJob.run, SGLangJob.run, runCmd, hv, h, countSpawn, countKill, exceptOk]

/-- Witness for C8: the world whose first `uv venv` fails. -/
theorem provisioning_failure_no_spawn_witness :
    countSpawn (VLLMJob.run cfg0 wVenvFail).2 = 0 ∧
      countKill (VLLMJob.run cfg0 wVenvFail).2 = 0 ∧
      exceptOk (VLLMJob.run cfg0 wVenvFail).1 = false :=
  (provisioning_failure_no_spawn cfg0 wVenvFail (Or.inl rfl)).1

/-- Writing one variable leaves every other variable's binding
unchanged. -/
lemma envLookup_envSet_ne (e : EnvMap) (K v k : String) (hk : k ≠ K) :
    envLookup (envSet e K v) k = envLookup e k := by
  have hKk : (K == k) = false := beq_eq_false_iff_ne.mpr (Ne.symm hk)
  induction e with
  | nil => simp [envSet, envLookup, hKk]
  | cons hd rest ih =>
    obtain ⟨k0, v0⟩ := hd
    by_cases h0 : (k0 == K) = true
    · have h0' : k0 = K := by simpa using h0
      subst h0'
      simp [envSet, envLookup, hKk]
    · have h0' : (k0 == K) = false := by simpa using h0
      simp [envSet, envLookup, h0', ih]

/-- Any spawn recorded by `VLLMJob.run` carries the environment built
at lines 123-125. -/
lemma vllm_spawn_env (cfg : JobCfg) (w : World) (l : String) (e : EnvMap)
    (hmem : Act.spawn l e ∈ (VLLMJob.run cfg w).2) :
    e = buildSpawnEnv w.osEnv cfg.cuda_dev := by
  unfold VLLMJob.run at hmem
  cases hv : w.venvOk
  · simp [runCmd, hv] at hmem
  · cases hi : w.installOk
    · simp [runCmd, hv, hi] at hmem
    · cases hs : w.spawnOk
      · simp [runCmd, hv, hi, hs] at hmem
      · rcases hw : (wait_for_server w.poll 120 2).1 with t | t
        · cases hsv : w.srcVenvOk
          · simp [runCmd, hv, hi, hs, hw, hsv] at hmem
            exact hmem.2
          · cases hsd : w.srcDepsOk
            · simp [runCmd, hv, hi, hs, hw, hsv, hsd] at hmem
              exact hmem.2
            · cases hb : w.benchOk
              · simp [runCmd, hv, hi, hs, hw, hsv, hsd, hb] at hmem
                exact hmem.2
              · simp [runCmd, hv, hi, hs, hw, hsv, hsd, hb] at hmem
                exact hmem.2
        · simp [runCmd, hv, hi, hs, hw] at hmem
          exact hmem.2

/-- Any spawn recorded by `SGLangJob.run` carries the environment built
at lines 199-201. -/
lemma sglang_spawn_env (cfg : JobCfg) (w : World) (l : String) (e : EnvMap)
    (hmem : Act.spawn l e ∈ (SGLangJob.run cfg w).2) :
    e = buildSpawnEnv w.osEnv cfg.cuda_dev := by
  unfold SGLangJob.run at hmem
  cases hv : w.venvOk
  · simp [runCmd, hv] at hmem
  · cases hi : w.installOk
    · simp [runCmd, hv, hi] at hmem
    · cases hs : w.spawnOk
      · simp [runCmd, hv, hi, hs] at hmem
      · rcases hw : (wait_for_server w.poll 120 2).1 with t | t
        · cases hb : w.benchOk
          · simp [runCmd, hv, hi, hs, hw, hb] at hmem
            exact hmem.2
          · simp [runCmd, hv, hi, hs, hw, hb] at hmem
            exact hmem.2
        · simp [runCmd, hv, hi, hs, hw] at hmem
          exact hmem.2

/-- C10: the device-selection override is applied to the spawn
environment only when non-empty — an empty `--cuda-device` leaves the
inherited copy of the orchestrator's environment unchanged — and every
variable other than `CUDA_VISIBLE_DEVICES` is passed through unchanged;
every spawn either job performs uses exactly this environment. -/
theorem cuda_override_frame (base : EnvMap) (d k : String) (cfg : JobCfg) (w : World) :
    (d = "" → buildSpawnEnv base d = base) ∧
    (k ≠ "CUDA_VISIBLE_DEVICES" →
      envLookup (buildSpawnEnv base d) k = envLookup base k) ∧
    (∀ l e, Act.spawn l e ∈ (VLLMJob.run cfg w).2 →
      e = buildSpawnEnv w.osEnv cfg.cuda_dev) ∧
    (∀ l e, Act.spawn l e ∈ (SGLangJob.run cfg w).2 →
      e = buildSpawnEnv w.osEnv cfg.cuda_dev) := by
  refine ⟨?_, ?_, vllm_spawn_env cfg w, sglang_spawn_env cfg w⟩
  · intro hd
    subst hd
    rfl
  · intro hk
    by_cases hempty : d.isEmpty
    · simp [buildSpawnEnv, hempty]
    · simp only [buildSpawnEnv, hempty, if_false, Bool.false_eq_true]
      exact envLookup_envSet_ne base "CUDA_VISIBLE_DEVICES" d k hk

/-- Witness for C10: empty override on a two-variable environment, and
the frame property at the variable `PATH`. -/
theorem cuda_override_frame_witness :
    buildSpawnEnv [("PATH", "/usr/bin"), ("HOME", "/root")] "" =
        [("PATH", "/usr/bin"), ("HOME", "/root")] ∧
      envLookup (buildSpawnEnv [("PATH", "/usr/bin")] "3") "PATH" =
        envLookup [("PATH", "/usr/bin")] "PATH" :=
  ⟨(cuda_override_frame [("PATH", "/usr/bin"), ("HOME", "/root")] "" "PATH" cfg0 w0).1 rfl,
    (cuda_override_frame [("PATH", "/usr/bin")] "3" "PATH" cfg0 w0).2.1 (by decide)⟩

/-- C2: if the jobs before `j` all succeed and `j`'s run raises, then
`run_jobs` logs the failure and returns at once: the event log is
exactly the log of the sequence truncated right after `j`, so no later
job is ever started. -/
theorem run_jobs_stops_after_failure (pre : List MJob) (j : MJob) (post : List MJob)
    (hpre : ∀ q ∈ pre, exceptOk q.run.1 = true) (hj : exceptOk j.run.1 = false) :
    run_jobs (pre ++ j :: post) = run_jobs (pre ++ [j]) ∧
      ∃ m, Event.failed j.name m ∈ run_jobs (pre ++ j :: post) := by
  induction pre with
  | nil =>
    rcases hr : j.run.1 with m | u
    · constructor
      · simp [run_jobs, hr]
      · exact ⟨m, by simp [run_jobs, hr]⟩
    · rw [hr] at hj
      exact absurd hj (by simp [exceptOk])
  | cons a rest ih =>
    have ha : exceptOk a.run.1 = true := hpre a (List.mem_cons_self a rest)
    rcases hr : a.run.1 with m | u
    · rw [hr] at ha
      exact absurd ha (by simp [exceptOk])
    · have hrest : ∀ q ∈ rest, exceptOk q.run.1 = true := fun q hq =>
        hpre q (List.mem_cons_of_mem a hq)
      obtain ⟨heq, m, hmem⟩ := ih hrest
      by_cases hname : (a.name == "vllm") = true
      · refine ⟨?_, m, ?_⟩
        · simp [run_jobs, hr, hname, heq]
        · simp [run_jobs, hr, hname]
          exact hmem
      · have hname' : (a.name == "vllm") = false := by simpa using hname
        refine ⟨?_, m, ?_⟩
        · simp [run_jobs, hr, hname', heq]
        · simp [run_jobs, hr, hname']
          exact hmem

/-- Witness for C2, the spec's end-to-end scenario A: the vLLM job's
benchmark workload exits non-zero, so `run_jobs` records the failure
and the SGLang job is never started — the log equals the log of the
one-job sequence. -/
theorem run_jobs_stops_after_failure_witness :
    run_jobs ([] ++ MJob.mk "vllm" (VLLMJob.run cfg0 wBenchFail) ::
        [MJob.mk "sglang" (SGLangJob.run cfg0 wAllOk)]) =
      run_jobs ([] ++ [MJob.mk "vllm" (VLLMJob.run cfg0 wBenchFail)]) ∧
    ∃ m, Event.failed "vllm" m ∈
      run_jobs ([] ++ MJob.mk "vllm" (VLLMJob.run cfg0 wBenchFail) ::
        [MJob.mk "sglang" (SGLangJob.run cfg0 wAllOk)]) :=
  run_jobs_stops_after_failure [] (MJob.mk "vllm" (VLLMJob.run cfg0 wBenchFail))
    [MJob.mk "sglang" (SGLangJob.run cfg0 wAllOk)]
    (fun q hq => absurd hq (List.not_mem_nil q)) (by decide)

/-- C5, counterexample: the runner performs no per-job cleanup pass in
general.  A successful job named `"sglang"` completes with zero `pkill`
sweeps (the sweep at lines 106-108 is guarded by `job.name == "vllm"`),
and a failed job named `"vllm"` also gets zero sweeps (the `except`
branch returns before line 106). -/
theorem cleanup_pass_counterexample :
    (run_jobs [MJob.mk "sglang" (Except.ok (), [])] =
        [Event.started "sglang", Event.completed "sglang"] ∧
      countPkill (run_jobs [MJob.mk "sglang" (Except.ok (), [])]) = 0) ∧
    (run_jobs [MJob.mk "vllm" (Except.error "boom", [])] =
        [Event.started "vllm", Event.failed "vllm" "boom"] ∧
      countPkill (run_jobs [MJob.mk "vllm" (Except.error "boom", [])]) = 0) := by
  refine ⟨⟨?_, ?_⟩, ?_, ?_⟩ <;> decide

/-- C5, amended: the runner's only external cleanup pass is
`pkill -f "vllm serve"`, and it runs exactly when a job named `"vllm"`
completes successfully (all jobs before it having succeeded); no
cleanup pass follows a failed job or a job with any other name. -/
theorem pkill_only_after_vllm_success (jobs : List MJob) (p : String) :
    Event.pkill p ∈ run_jobs jobs ↔
      (p = "vllm serve" ∧ ∃ pre j post, jobs = pre ++ j :: post ∧
        j.name = "vllm" ∧ exceptOk j.run.1 = true ∧
        ∀ q ∈ pre, exceptOk q.run.1 = true) := by
  induction jobs with
  | nil =>
    constructor
    · intro h
      exact absurd h (List.not_mem_nil _)
    · rintro ⟨hp, pre, j, post, habs, -⟩
      cases pre <;> simp at habs
  | cons a rest ih =>
    rcases hr : a.run.1 with m | u
    · constructor
      · intro h
        have hfalse : False := by
          rw [show run_jobs (a :: rest) =
              (Event.started a.name :: a.run.2.map (Event.jobAct a.name)) ++
                [Event.failed a.name m] by simp [run_jobs, hr]] at h
          simp at h
        exact hfalse.elim
      · rintro ⟨hp, pre, j, post, hdec, hname, hok, hpre⟩
        cases pre with
        | nil =>
          simp only [List.nil_append, List.cons.injEq] at hdec
          rw [← hdec.1, hr] at hok
          exact absurd hok (by simp [exceptOk])
        | cons b pre2 =>
          simp only [List.cons_append, List.cons.injEq] at hdec
          have hb : exceptOk b.run.1 = true := hpre b (List.mem_cons_self b pre2)
          rw [← hdec.1, hr] at hb
          exact absurd hb (by simp [exceptOk])
    · have haok : exceptOk a.run.1 = true := by simp [exceptOk, hr]
      by_cases hname : a.name = "vllm"
      · have hnb : (a.name == "vllm") = true := beq_iff_eq.mpr hname
        constructor
        · intro h
          have h' : p = "vllm serve" ∨ Event.pkill p ∈ run_jobs rest := by
            simpa [run_jobs, hr, hnb] using h
          rcases h' with h' | h'
          · exact ⟨h', [], a, rest, rfl, hname, haok, fun q hq =>
              absurd hq (List.not_mem_nil q)⟩
          · obtain ⟨hp, pre, j, post, hdec, hnj, hok, hpre⟩ := ih.mp h'
            refine ⟨hp, a :: pre, j, post, by simp [hdec], hnj, hok, ?_⟩
            intro q hq
            rcases List.mem_cons.mp hq with hq | hq
            · rw [hq]; exact haok
            · exact hpre q hq
        · rintro ⟨hp, -⟩
          rw [hp]
          simp [run_jobs, hr, hnb]
      · have hnb : (a.name == "vllm") = false := beq_eq_false_iff_ne.mpr hname
        constructor
        · intro h
          have h' : Event.pkill p ∈ run_jobs rest := by
            simpa [run_jobs, hr, hnb] using h
          obtain ⟨hp, pre, j, post, hdec, hnj, hok, hpre⟩ := ih.mp h'
          refine ⟨hp, a :: pre, j, post, by simp [hdec], hnj, hok, ?_⟩
          intro q hq
          rcases List.mem_cons.mp hq with hq | hq
          · rw [hq]; exact haok
          · exact hpre q hq
        · rintro ⟨hp, pre, j, post, hdec, hnj, hok, hpre⟩
          cases pre with
          | nil =>
            simp only [List.nil_append, List.cons.injEq] at hdec
            rw [← hdec.1] at hnj
            exact absurd hnj hname
          | cons b pre2 =>
            simp only [List.cons_append, List.cons.injEq] at hdec
            have hmem : Event.pkill p ∈ run_jobs rest := by
              refine ih.mpr ⟨hp, pre2, j, post, hdec.2, hnj, hok, ?_⟩
              intro q hq
              exact hpre q (List.mem_cons_of_mem b hq)
            simp [run_jobs, hr, hnb]
            exact hmem

/-- Witness for the amended C5: a successful job named `"vllm"` does
trigger the `pkill` sweep. -/
theorem pkill_only_after_vllm_success_witness :
    Event.pkill "vllm serve" ∈ run_jobs [MJob.mk "vllm" (Except.ok (), [])] :=
  (pkill_only_after_vllm_success [MJob.mk "vllm" (Except.ok (), [])] "vllm serve").mpr
    ⟨rfl, [], MJob.mk "vllm" (Except.ok (), []), [], rfl, rfl, rfl,
      fun q hq => absurd hq (List.not_mem_nil q)⟩
